import Mathlib

/-!
# RideShare matching and lifecycle engine: a shallow embedding

This file embeds the ride matching and lifecycle core of the RideShare
backend (the Express route handlers for join / leave / complete, the
destination compatibility resolver, the ride matcher `findMatchingRides`,
and the expiration sweeper `cleanupExpiredRides`) as executable Lean
definitions, and proves or refutes the specified properties.

Conventions of the embedding:
* SQL rows become list elements; `COUNT(*)` becomes `List.length` of a
  `List.filter`.
* A request handler on a single ride becomes a function
  `Ride → ... → Except Error Ride`; an error response leaves the stored
  state unchanged (the handlers return before issuing any `UPDATE`).
* JavaScript string comparison (`===`, `<` on `"YYYY-MM-DD"` / `"HH:MM"`
  strings, as used by the sweeper) becomes `String` equality and the
  lexicographic `String` order.
* Times of day in the matcher are minutes-since-midnight (`Nat`); SQL
  `TIME` comparison on such values is numeric comparison.
-/

namespace RideShare

/-- Status column of the `rides` table. -/
inductive RideStatus where
  | waiting
  | active
  | full
  | completed
  | cancelled
deriving DecidableEq, Repr

/-- One row of `ride_participants` for a fixed ride: `(user_id, joined_at)`.
`joinedAt` is an abstract timestamp ordinal. -/
structure Participant where
  userId : Nat
  joinedAt : Nat
deriving DecidableEq, Repr

/-- The state of a single ride: the `rides` row together with its
`ride_participants` rows (in insertion order). -/
structure Ride where
  creatorId : Nat
  maxSeats : Nat
  status : RideStatus
  participants : List Participant
  currentSeats : Nat
  completedBy : Option Nat
  completedAt : Option Nat
deriving DecidableEq, Repr

/-- `SELECT COUNT(*) FROM ride_participants WHERE ride_id = ?`. -/
def participantCount (r : Ride) : Nat :=
  r.participants.length

/-- `SELECT id FROM ride_participants WHERE ride_id = ? AND user_id = ?`
is nonempty. -/
def isParticipant (r : Ride) (uid : Nat) : Bool :=
  r.participants.any (fun p => p.userId == uid)

/-! ## Destination Compatibility Resolver (routes file, `DESTINATION_GROUPS`,
`getDestinationGroup`, `areDestinationsCompatible`) -/

/-- JavaScript `s.toLowerCase()` / SQL `LOWER(s)` on the ASCII strings
this application handles, written over the character list so that it
evaluates inside the kernel. -/
def lowerStr (s : String) : String :=
  String.mk (s.data.map Char.toLower)

/-- The static grouping table, in the object-literal insertion order the
JavaScript `for (const [groupName, destinations] of Object.entries(...))`
loop observes. -/
def DESTINATION_GROUPS : List (String × List String) :=
  [ ("transport_hub",
      ["Railway Station", "Bus Stand", "Vijetha Mart", "Connplex Cinemas",
       "Tadepalligudem Highway"]),
    ("nit_back", ["NIT Back Gate"]),
    ("nit_front", ["NIT Front Gate"]),
    ("shopping",
      ["Bus Stand", "Vijetha Mart", "Connplex Cinemas", "Jio Mart",
       "GV Mall"]),
    ("theatres", ["Sri Ranga Mahal Theatre", "Sri Seshmahal Theatre"]) ]

/-- Result shape of `getDestinationGroup`: `{ group, destinations }`. -/
structure DestGroup where
  group : String
  destinations : List String
deriving DecidableEq, Repr

/-- `getDestinationGroup`: first group of the table containing the
destination, else the fallback `{ group: "other", destinations: [destination] }`. -/
def getDestinationGroup (destination : String) : DestGroup :=
  match DESTINATION_GROUPS.find? (fun g => g.2.contains destination) with
  | some g => ⟨g.1, g.2⟩
  | none => ⟨"other", [destination]⟩

/-- `areDestinationsCompatible(dest1, dest2)`: exact match, same resolved
group, or the transport_hub / shopping overlap special case. -/
def areDestinationsCompatible (dest1 dest2 : String) : Bool :=
  let group1 := getDestinationGroup dest1
  let group2 := getDestinationGroup dest2
  if dest1 == dest2 then
    true
  else if group1.group == group2.group then
    true
  else if (group1.group == "transport_hub" && group2.group == "shopping") ||
      (group1.group == "shopping" && group2.group == "transport_hub") then
    (group1.destinations.filter
      (fun d => group2.destinations.contains d)).length > 0
  else
    false

/-! ## Ride Lifecycle Manager: join / leave / complete handlers -/

/-- Error responses of the join handlers. `notFound` is the 404
"Ride not found or not active"; `selfJoin` the 400 creator rejection;
`alreadyJoined` the 400 duplicate-join rejection; `rideFull` the 400
"Ride is full". -/
inductive JoinError where
  | notFound
  | selfJoin
  | alreadyJoined
  | rideFull
deriving DecidableEq, Repr

/-- `router.post("/:id/join")`: the plain join handler. Checks, in order:
ride exists with `status = 'active'`; caller is not the creator; caller has
no participant row; capacity (counting 2 seats on the first join, which
also inserts the creator). On success inserts the joiner (and on first join
the creator), updates `current_seats`, and flips status to `full` when the
new count reaches `max_seats`. -/
def joinRide (r : Ride) (uid now : Nat) : Except JoinError Ride :=
  if r.status ≠ RideStatus.active then
    .error .notFound
  else if r.creatorId == uid then
    .error .selfJoin
  else if isParticipant r uid then
    .error .alreadyJoined
  else
    let currentParticipants := participantCount r
    let isFirstJoin := currentParticipants == 0
    let seatsNeeded := if isFirstJoin then 2 else 1
    if currentParticipants + seatsNeeded > r.maxSeats then
      .error .rideFull
    else
      let inserted :=
        r.participants ++
          (if isFirstJoin then [⟨uid, now⟩, ⟨r.creatorId, now⟩]
           else [⟨uid, now⟩])
      let newCount := currentParticipants + seatsNeeded
      if newCount ≥ r.maxSeats then
        .ok { r with participants := inserted, currentSeats := newCount,
                     status := .full }
      else
        .ok { r with participants := inserted, currentSeats := newCount }

/-- `router.post("/:id/join-match")`: the matched-join handler. Differs
from `joinRide` in its status filter (`status IN ('active','waiting')`),
in checking capacity before the duplicate-join check, and in always
writing the status (`full` or `active`) on success. -/
def joinMatchRide (r : Ride) (uid now : Nat) : Except JoinError Ride :=
  if r.status ≠ RideStatus.active ∧ r.status ≠ RideStatus.waiting then
    .error .notFound
  else if r.creatorId == uid then
    .error .selfJoin
  else
    let currentParticipants := participantCount r
    let isFirstJoin := currentParticipants == 0
    let seatsNeeded := if isFirstJoin then 2 else 1
    if currentParticipants + seatsNeeded > r.maxSeats then
      .error .rideFull
    else if isParticipant r uid then
      .error .alreadyJoined
    else
      let inserted :=
        r.participants ++
          (if isFirstJoin then [⟨uid, now⟩, ⟨r.creatorId, now⟩]
           else [⟨uid, now⟩])
      let newCount := currentParticipants + seatsNeeded
      let newStatus := if newCount ≥ r.maxSeats then RideStatus.full
                       else RideStatus.active
      .ok { r with participants := inserted, currentSeats := newCount,
                   status := newStatus }

/-- Error responses of the leave handler. -/
inductive LeaveError where
  | notInRide
deriving DecidableEq, Repr

/-- Accumulator step selecting the row with the least `joined_at`
(keeping the earlier row on ties, as row order does). -/
def minByJoinedAt (acc : Option Participant) (p : Participant) :
    Option Participant :=
  match acc with
  | none => some p
  | some q => if p.joinedAt < q.joinedAt then some p else some q

/-- `SELECT user_id FROM ride_participants WHERE ride_id = ? AND
user_id != ? ORDER BY joined_at ASC LIMIT 1`: the earliest-joined
participant other than `uid` (first one in row order among equal
`joined_at`). -/
def earliestOther (r : Ride) (uid : Nat) : Option Participant :=
  (r.participants.filter (fun p => p.userId ≠ uid)).foldl minByJoinedAt none

/-- `router.post("/:id/leave")`. Fails only when the caller has no
participant row (there is no status guard). A leaving creator transfers
ownership to `earliestOther` when one exists — deleting the *leaving
creator's* row, keeping the promoted participant's row, recomputing
`current_seats`, and leaving `status` untouched — and otherwise cancels
the ride and clears the participant rows. A non-creator leaver has their
row deleted, `current_seats` recomputed, and `status` set to `active`. -/
def leaveRide (r : Ride) (uid : Nat) : Except LeaveError Ride :=
  if ¬ isParticipant r uid then
    .error .notInRide
  else if r.creatorId == uid then
    match earliestOther r uid with
    | some next =>
      let remaining := r.participants.filter (fun p => p.userId ≠ uid)
      .ok { r with creatorId := next.userId, participants := remaining,
                   currentSeats := remaining.length }
    | none =>
      .ok { r with status := .cancelled, participants := [],
                   currentSeats := 0 }
  else
    let remaining := r.participants.filter (fun p => p.userId ≠ uid)
    .ok { r with participants := remaining,
                 currentSeats := remaining.length, status := .active }

/-- Error responses of the complete handler. `alreadyCompleted` is the
Conflict on a double complete. -/
inductive CompleteError where
  | forbidden
  | alreadyCompleted
deriving DecidableEq, Repr

/-- `router.post("/:id/complete")`: authorized for the creator or any
participant; rejects a ride already `completed`; otherwise sets
`status = 'completed'`, `completed_by`, `completed_at`. -/
def completeRide (r : Ride) (uid now : Nat) : Except CompleteError Ride :=
  let isCreator := r.creatorId == uid
  let isPart := isParticipant r uid
  if ¬ (isCreator || isPart) then
    .error .forbidden
  else if r.status = RideStatus.completed then
    .error .alreadyCompleted
  else
    .ok { r with status := .completed, completedBy := some uid,
                 completedAt := some now }

/-- Error responses of the delete handler. `notFound` is the 404 "Ride
not found or you don't have permission to delete it"; `completedRide` the
400 "Cannot delete completed rides"; `hasParticipants` the 400 "Cannot
delete ride with other participants". -/
inductive DeleteError where
  | notFound
  | completedRide
  | hasParticipants
deriving DecidableEq, Repr

/-- `router.delete("/:id")`. The lookup `SELECT * FROM rides WHERE
id = ? AND creator_id = ?` makes a non-creator caller indistinguishable
from a missing ride (404); a `completed` ride is rejected before any
write; a ride with participant rows other than the creator's is rejected;
otherwise the ride row is deleted (`.ok ()`, the cascade removing its
dependent rows). Every error path returns before the DELETE, leaving the
stored ride unchanged. -/
def deleteRide (r : Ride) (uid : Nat) : Except DeleteError Unit :=
  if r.creatorId ≠ uid then
    .error .notFound
  else if r.status = RideStatus.completed then
    .error .completedRide
  else if 0 < (r.participants.filter (fun p => p.userId ≠ uid)).length then
    .error .hasParticipants
  else
    .ok ()

/-! ## Operation sequences on a single ride -/

/-- One lifecycle call on a ride. -/
inductive Op where
  | join (uid now : Nat)
  | joinMatch (uid now : Nat)
  | leave (uid : Nat)
  | complete (uid now : Nat)
deriving DecidableEq, Repr

/-- Apply one call; an error response leaves the stored ride unchanged
(the handlers return before any `UPDATE`/`INSERT`). -/
def applyOp (r : Ride) (op : Op) : Ride :=
  match op with
  | .join uid now =>
    match joinRide r uid now with
    | .ok r' => r'
    | .error _ => r
  | .joinMatch uid now =>
    match joinMatchRide r uid now with
    | .ok r' => r'
    | .error _ => r
  | .leave uid =>
    match leaveRide r uid with
    | .ok r' => r'
    | .error _ => r
  | .complete uid now =>
    match completeRide r uid now with
    | .ok r' => r'
    | .error _ => r

/-- Apply a sequence of calls in order. -/
def applyOps (r : Ride) (ops : List Op) : Ride :=
  ops.foldl applyOp r

/-- A freshly created ride (both create paths insert with no participant
rows). -/
def createdRide (creator maxSeats : Nat) (status : RideStatus) : Ride :=
  { creatorId := creator, maxSeats := maxSeats, status := status,
    participants := [], currentSeats := 0, completedBy := none,
    completedAt := none }

/-! ## Capacity invariant lemmas -/

theorem joinRide_ok_spec {r r' : Ride} {uid now : Nat}
    (h : joinRide r uid now = .ok r') :
    r'.maxSeats = r.maxSeats ∧
    participantCount r' =
      participantCount r + (if participantCount r = 0 then 2 else 1) ∧
    participantCount r' ≤ r.maxSeats := by
  simp only [joinRide] at h
  repeat' split at h
  all_goals try (exfalso; exact Except.noConfusion h)
  all_goals cases h
  all_goals refine ⟨rfl, ?_, ?_⟩
  all_goals simp_all [participantCount, List.length_append]

theorem joinMatchRide_ok_spec {r r' : Ride} {uid now : Nat}
    (h : joinMatchRide r uid now = .ok r') :
    r'.maxSeats = r.maxSeats ∧
    participantCount r' =
      participantCount r + (if participantCount r = 0 then 2 else 1) ∧
    participantCount r' ≤ r.maxSeats := by
  simp only [joinMatchRide] at h
  repeat' split at h
  all_goals try (exfalso; exact Except.noConfusion h)
  all_goals cases h
  all_goals refine ⟨rfl, ?_, ?_⟩
  all_goals simp_all [participantCount, List.length_append]

theorem leaveRide_ok_spec {r r' : Ride} {uid : Nat}
    (h : leaveRide r uid = .ok r') :
    r'.maxSeats = r.maxSeats ∧ participantCount r' ≤ participantCount r := by
  simp only [leaveRide] at h
  repeat' split at h
  all_goals try (exfalso; exact Except.noConfusion h)
  all_goals cases h
  all_goals refine ⟨rfl, ?_⟩
  all_goals simp [participantCount, List.length_filter_le]

theorem completeRide_ok_spec {r r' : Ride} {uid now : Nat}
    (h : completeRide r uid now = .ok r') :
    r'.maxSeats = r.maxSeats ∧ participantCount r' = participantCount r := by
  simp only [completeRide] at h
  repeat' split at h
  all_goals try (exfalso; exact Except.noConfusion h)
  all_goals cases h
  all_goals exact ⟨rfl, rfl⟩

theorem applyOp_capacity {r : Ride} (op : Op)
    (h : participantCount r ≤ r.maxSeats) :
    participantCount (applyOp r op) ≤ (applyOp r op).maxSeats := by
  cases op with
  | join uid now =>
    simp only [applyOp]
    cases hj : joinRide r uid now with
    | ok r' =>
      obtain ⟨hm, _, hc⟩ := joinRide_ok_spec hj
      simpa [hm] using hc
    | error e => exact h
  | joinMatch uid now =>
    simp only [applyOp]
    cases hj : joinMatchRide r uid now with
    | ok r' =>
      obtain ⟨hm, _, hc⟩ := joinMatchRide_ok_spec hj
      simpa [hm] using hc
    | error e => exact h
  | leave uid =>
    simp only [applyOp]
    cases hl : leaveRide r uid with
    | ok r' =>
      obtain ⟨hm, hc⟩ := leaveRide_ok_spec hl
      rw [hm]
      exact le_trans hc h
    | error e => exact h
  | complete uid now =>
    simp only [applyOp]
    cases hc : completeRide r uid now with
    | ok r' =>
      obtain ⟨hm, he⟩ := completeRide_ok_spec hc
      rw [hm, he]
      exact h
    | error e => exact h

theorem applyOps_capacity {r : Ride} (ops : List Op)
    (h : participantCount r ≤ r.maxSeats) :
    participantCount (applyOps r ops) ≤ (applyOps r ops).maxSeats := by
  induction ops generalizing r with
  | nil => exact h
  | cons op ops ih =>
    simp only [applyOps, List.foldl_cons] at *
    exact ih (applyOp_capacity op h)

theorem applyOp_maxSeats (r : Ride) (op : Op) :
    (applyOp r op).maxSeats = r.maxSeats := by
  cases op with
  | join uid now =>
    simp only [applyOp]
    cases hj : joinRide r uid now with
    | ok r' => exact (joinRide_ok_spec hj).1
    | error e => rfl
  | joinMatch uid now =>
    simp only [applyOp]
    cases hj : joinMatchRide r uid now with
    | ok r' => exact (joinMatchRide_ok_spec hj).1
    | error e => rfl
  | leave uid =>
    simp only [applyOp]
    cases hl : leaveRide r uid with
    | ok r' => exact (leaveRide_ok_spec hl).1
    | error e => rfl
  | complete uid now =>
    simp only [applyOp]
    cases hc : completeRide r uid now with
    | ok r' => exact (completeRide_ok_spec hc).1
    | error e => rfl

theorem applyOps_maxSeats (r : Ride) (ops : List Op) :
    (applyOps r ops).maxSeats = r.maxSeats := by
  induction ops generalizing r with
  | nil => rfl
  | cons op ops ih =>
    simp only [applyOps, List.foldl_cons] at *
    rw [ih, applyOp_maxSeats]

/-- C1: for every sequence of lifecycle calls on a freshly created ride,
the live participant count stays within `0 ≤ count ≤ max_seats` after
every operation (every prefix of a sequence being itself a sequence). -/
theorem capacity_invariant (creator maxSeats : Nat) (status : RideStatus)
    (ops : List Op) :
    0 ≤ participantCount (applyOps (createdRide creator maxSeats status) ops) ∧
    participantCount (applyOps (createdRide creator maxSeats status) ops) ≤
      maxSeats := by
  constructor
  · exact Nat.zero_le _
  · have h := applyOps_capacity (r := createdRide creator maxSeats status) ops
      (by simp [participantCount, createdRide])
    rwa [applyOps_maxSeats] at h

/-! ## First-join doubling (C2) -/

/-- C2: on a ride eligible for a plain join (status `active`, caller not
the creator, no existing row), a join onto an empty ride inserts the
joiner and the creator in the same operation (so the count afterwards is
2, and — counting the rejected case, which leaves the ride untouched —
never 1); a join onto a non-empty ride appends only the joiner; and the
capacity check rejects with "Ride is full" exactly when
`current_count + (2 on first join, else 1) > max_seats`. -/
theorem first_join_doubling (r : Ride) (uid now : Nat)
    (hs : r.status = RideStatus.active) (hc : r.creatorId ≠ uid)
    (hp : isParticipant r uid = false) :
    (participantCount r = 0 →
      (∀ r', joinRide r uid now = .ok r' →
        r'.participants = [⟨uid, now⟩, ⟨r.creatorId, now⟩] ∧
        participantCount r' = 2) ∧
      (participantCount (applyOp r (.join uid now)) = 2 ∨
       participantCount (applyOp r (.join uid now)) = 0)) ∧
    (participantCount r ≠ 0 →
      ∀ r', joinRide r uid now = .ok r' →
        r'.participants = r.participants ++ [⟨uid, now⟩] ∧
        participantCount r' = participantCount r + 1) ∧
    (joinRide r uid now = .error .rideFull ↔
      r.maxSeats <
        participantCount r + (if participantCount r = 0 then 2 else 1)) := by
  have hc' : (r.creatorId == uid) = false := by simp [hc]
  refine ⟨fun hz => ⟨fun r' h => ?_, ?_⟩, fun hz r' h => ?_, ?_⟩
  · have he : r.participants = [] := List.length_eq_zero.mp hz
    simp only [joinRide, hs, hc', hp, hz, he] at h
    repeat' split at h
    all_goals try (exfalso; exact Except.noConfusion h)
    all_goals cases h
    all_goals simp_all [participantCount]
  · simp only [applyOp]
    cases hj : joinRide r uid now with
    | ok r' =>
      left
      have := (joinRide_ok_spec hj).2.1
      simp [hz] at this
      exact this
    | error e => right; exact hz
  · simp only [joinRide, hs, hc', hp, hz] at h
    repeat' split at h
    all_goals try (exfalso; exact Except.noConfusion h)
    all_goals cases h
    all_goals simp_all [participantCount, List.length_append]
  · simp only [joinRide, hs, hc', hp]
    constructor
    · intro h
      repeat' split at h
      all_goals simp_all [participantCount]
    · intro h
      repeat' split
      all_goals simp_all [participantCount]
      all_goals omega

/-- Witness for `first_join_doubling` at a concrete ride. -/
theorem first_join_doubling_witness :
    ((createdRide 1 6 RideStatus.active).status = RideStatus.active ∧
      (createdRide 1 6 RideStatus.active).creatorId ≠ 2 ∧
      isParticipant (createdRide 1 6 RideStatus.active) 2 = false ∧
      participantCount (createdRide 1 6 RideStatus.active) = 0) ∧
    (∀ r', joinRide (createdRide 1 6 RideStatus.active) 2 7 = .ok r' →
        r'.participants = [⟨2, 7⟩, ⟨1, 7⟩] ∧ participantCount r' = 2) :=
  ⟨⟨by decide, by decide, by decide, by decide⟩,
    ((first_join_doubling (createdRide 1 6 RideStatus.active) 2 7
      (by decide) (by decide) (by decide)).1 (by decide)).1⟩

/-! ## Ownership transfer on creator-leave (C3) -/

theorem foldl_minByJoinedAt_spec (l : List Participant) (q0 : Participant) :
    ∃ q, l.foldl minByJoinedAt (some q0) = some q ∧ (q = q0 ∨ q ∈ l) ∧
      q.joinedAt ≤ q0.joinedAt ∧ ∀ p ∈ l, q.joinedAt ≤ p.joinedAt := by
  induction l generalizing q0 with
  | nil => exact ⟨q0, rfl, Or.inl rfl, le_refl _, by simp⟩
  | cons p l ih =>
    simp only [List.foldl_cons, minByJoinedAt]
    by_cases hlt : p.joinedAt < q0.joinedAt
    · rw [if_pos hlt]
      obtain ⟨q, hq, hmem, hle, hall⟩ := ih p
      refine ⟨q, hq, ?_, ?_, ?_⟩
      · rcases hmem with rfl | hm
        · exact Or.inr (List.mem_cons_self _ _)
        · exact Or.inr (List.mem_cons_of_mem _ hm)
      · omega
      · intro x hx
        rcases List.mem_cons.mp hx with rfl | hm
        · exact hle
        · exact hall x hm
    · rw [if_neg hlt]
      obtain ⟨q, hq, hmem, hle, hall⟩ := ih q0
      refine ⟨q, hq, ?_, hle, ?_⟩
      · rcases hmem with rfl | hm
        · exact Or.inl rfl
        · exact Or.inr (List.mem_cons_of_mem _ hm)
      · intro x hx
        rcases List.mem_cons.mp hx with rfl | hm
        · omega
        · exact hall x hm

theorem earliestOther_spec {r : Ride} {uid : Nat} {q : Participant}
    (h : earliestOther r uid = some q) :
    q ∈ r.participants ∧ q.userId ≠ uid ∧
    ∀ p ∈ r.participants, p.userId ≠ uid → q.joinedAt ≤ p.joinedAt := by
  unfold earliestOther at h
  cases hf : r.participants.filter (fun p => p.userId ≠ uid) with
  | nil => rw [hf] at h; exact absurd h (by simp)
  | cons p t =>
    rw [hf] at h
    simp only [List.foldl_cons, minByJoinedAt] at h
    obtain ⟨q', hq', hmem, hle, hall⟩ := foldl_minByJoinedAt_spec t p
    rw [hq'] at h
    cases h
    have hqf : q ∈ r.participants.filter (fun p => p.userId ≠ uid) := by
      rw [hf]
      rcases hmem with rfl | hm
      · exact List.mem_cons_self _ _
      · exact List.mem_cons_of_mem _ hm
    have hq2 := List.mem_filter.mp hqf
    refine ⟨hq2.1, by simpa using hq2.2, ?_⟩
    intro x hx hxne
    have hxf : x ∈ r.participants.filter (fun p => p.userId ≠ uid) :=
      List.mem_filter.mpr ⟨hx, by simpa using hxne⟩
    rw [hf] at hxf
    rcases List.mem_cons.mp hxf with rfl | hm
    · exact hle
    · exact hall x hm

/-- The concrete ride refuting the stated form of C3: creator 1 joined at
time 0, user 2 at time 1, user 3 at time 2; the ride is `full` at
`max_seats = 3`. -/
def c3Ride : Ride :=
  { creatorId := 1, maxSeats := 3, status := RideStatus.full,
    participants := [⟨1, 0⟩, ⟨2, 1⟩, ⟨3, 2⟩], currentSeats := 3,
    completedBy := none, completedAt := none }

/-- The ride `leaveRide` actually produces when creator 1 leaves
`c3Ride`. -/
def c3After : Ride :=
  { creatorId := 2, maxSeats := 3, status := RideStatus.full,
    participants := [⟨2, 1⟩, ⟨3, 2⟩], currentSeats := 2,
    completedBy := none, completedAt := none }

/-- C3 as stated is false: when creator 1 leaves `c3Ride`, user 2 is
promoted, but the handler deletes the *leaving creator's* participant row
— the promoted participant keeps their row (`isParticipant c3After 2`,
so the new creator is simultaneously a participant) — and the status
stays `full` even though a seat opened up (no demotion to `active`). -/
theorem creator_leave_counterexample :
    leaveRide c3Ride 1 = .ok c3After ∧
    c3After.creatorId = 2 ∧
    isParticipant c3After 2 = true ∧
    c3After.status = RideStatus.full ∧
    participantCount c3After < c3After.maxSeats := by
  refine ⟨rfl, rfl, rfl, rfl, ?_⟩
  decide

/-- C3 amended: when the creator leaves a ride on which they hold a
participant row and at least one other participant exists, the
earliest-joined other participant (by `joined_at`, earliest row on ties)
becomes the new creator, the *leaving creator's* row is deleted while the
promoted participant keeps theirs, `current_seats` is recomputed from the
remaining rows, and the status is left exactly as it was (in particular a
`full` ride is not demoted to `active`). -/
theorem creator_leave_transfer (r : Ride) (next : Participant)
    (hp : isParticipant r r.creatorId = true)
    (hn : earliestOther r r.creatorId = some next) :
    ∃ r', leaveRide r r.creatorId = .ok r' ∧
      r'.creatorId = next.userId ∧
      r'.participants =
        r.participants.filter (fun p => p.userId ≠ r.creatorId) ∧
      isParticipant r' next.userId = true ∧
      r'.currentSeats = r'.participants.length ∧
      r'.status = r.status ∧
      next ∈ r.participants ∧ next.userId ≠ r.creatorId ∧
      (∀ p ∈ r.participants, p.userId ≠ r.creatorId →
        next.joinedAt ≤ p.joinedAt) := by
  obtain ⟨hmem, hne, hmin⟩ := earliestOther_spec hn
  have hlv : leaveRide r r.creatorId =
      .ok { r with creatorId := next.userId, participants := r.participants.filter (fun p => p.userId ≠ r.creatorId), currentSeats := (r.participants.filter (fun p => p.userId ≠ r.creatorId)).length } := by
    simp only [leaveRide, hp, beq_self_eq_true, hn]
    simp
  refine ⟨_, hlv, rfl, rfl, ?_, rfl, rfl, hmem, hne, hmin⟩
  simp only [isParticipant, List.any_eq_true]
  exact ⟨next, List.mem_filter.mpr ⟨hmem, by simpa using hne⟩, by simp⟩

/-- Witness for `creator_leave_transfer` at the concrete ride `c3Ride`. -/
theorem creator_leave_transfer_witness :
    (isParticipant c3Ride c3Ride.creatorId = true ∧
      earliestOther c3Ride c3Ride.creatorId = some ⟨2, 1⟩) ∧
    ∃ r', leaveRide c3Ride c3Ride.creatorId = .ok r' ∧
      r'.creatorId = (2 : Nat) ∧
      r'.participants =
        c3Ride.participants.filter (fun p => p.userId ≠ c3Ride.creatorId) ∧
      isParticipant r' 2 = true ∧
      r'.currentSeats = r'.participants.length ∧
      r'.status = c3Ride.status ∧
      (⟨2, 1⟩ : Participant) ∈ c3Ride.participants ∧ (2 : Nat) ≠ c3Ride.creatorId ∧
      (∀ p ∈ c3Ride.participants, p.userId ≠ c3Ride.creatorId →
        (1 : Nat) ≤ p.joinedAt) :=
  ⟨⟨by decide, by decide⟩,
    creator_leave_transfer c3Ride ⟨2, 1⟩ (by decide) (by decide)⟩

/-! ## Terminality of `completed` (C4) -/

/-- A completed ride still holding its participant rows: creator 1 and
user 2, completed by 1 at time 9. -/
def c4Ride : Ride :=
  { creatorId := 1, maxSeats := 6, status := RideStatus.completed,
    participants := [⟨1, 0⟩, ⟨2, 1⟩], currentSeats := 2,
    completedBy := some 1, completedAt := some 9 }

/-- C4 as stated is false: the leave handler has no status guard, so
participant 2 leaving the completed ride `c4Ride` succeeds and resets the
status to `active` — a subsequent leave does move a ride away from
`completed`. -/
theorem completed_terminal_counterexample :
    leaveRide c4Ride 2 =
      .ok { creatorId := 1, maxSeats := 6, status := RideStatus.active,
            participants := [⟨1, 0⟩], currentSeats := 1,
            completedBy := some 1, completedAt := some 9 } ∧
    c4Ride.status = RideStatus.completed ∧
    applyOp c4Ride (.leave 2) ≠ c4Ride ∧
    (applyOp c4Ride (.leave 2)).status ≠ RideStatus.completed := by
  refine ⟨rfl, rfl, ?_, ?_⟩ <;> decide

/-- C4 amended: `completed` is terminal with respect to join, matched
join, delete, and complete — both join handlers answer NotFound, the
delete handler rejects a completed ride (404 for a non-creator, else the
"Cannot delete completed rides" Conflict) and never deletes it, a second
complete on the same ride is rejected (with the already-completed
Conflict whenever the caller is authorized), and every rejected call
leaves the stored ride unchanged. The leave handler, however, has no
status guard, so a participant can still move a completed ride to
`active` (or `cancelled`). -/
theorem completed_terminal_amended (r : Ride) (uid now : Nat)
    (h : r.status = RideStatus.completed) :
    joinRide r uid now = .error .notFound ∧
    joinMatchRide r uid now = .error .notFound ∧
    (deleteRide r uid = .error .notFound ∨
      deleteRide r uid = .error .completedRide) ∧
    (r.creatorId = uid → deleteRide r uid = .error .completedRide) ∧
    (completeRide r uid now = .error .forbidden ∨
      completeRide r uid now = .error .alreadyCompleted) ∧
    ((r.creatorId = uid ∨ isParticipant r uid = true) →
      completeRide r uid now = .error .alreadyCompleted) ∧
    applyOp r (.join uid now) = r ∧
    applyOp r (.joinMatch uid now) = r ∧
    applyOp r (.complete uid now) = r := by
  have hj : joinRide r uid now = .error .notFound := by
    simp [joinRide, h]
  have hjm : joinMatchRide r uid now = .error .notFound := by
    simp [joinMatchRide, h]
  have hdel : deleteRide r uid = .error .notFound ∨
      deleteRide r uid = .error .completedRide := by
    simp only [deleteRide, h]
    split_ifs with h1
    · exact Or.inl rfl
    · exact Or.inr rfl
  have hcm : completeRide r uid now = .error .forbidden ∨
      completeRide r uid now = .error .alreadyCompleted := by
    simp only [completeRide, h]
    split_ifs with h1
    · exact Or.inr rfl
    · exact Or.inl rfl
  refine ⟨hj, hjm, hdel, ?_, hcm, ?_, ?_, ?_, ?_⟩
  · intro hc
    simp [deleteRide, hc, h]
  · intro hauth
    have hb : (r.creatorId == uid || isParticipant r uid) = true := by
      rcases hauth with h2 | h2 <;> simp [h2]
    simp [completeRide, hb, h]
  · simp [applyOp, hj]
  · simp [applyOp, hjm]
  · rcases hcm with h2 | h2 <;> simp [applyOp, h2]

/-- Witness for `completed_terminal_amended` at the concrete completed
ride `c4Ride`. -/
theorem completed_terminal_amended_witness :
    c4Ride.status = RideStatus.completed ∧
    (joinRide c4Ride 1 10 = .error .notFound ∧
      joinMatchRide c4Ride 1 10 = .error .notFound ∧
      (deleteRide c4Ride 1 = .error .notFound ∨
        deleteRide c4Ride 1 = .error .completedRide) ∧
      (c4Ride.creatorId = 1 → deleteRide c4Ride 1 = .error .completedRide) ∧
      (completeRide c4Ride 1 10 = .error .forbidden ∨
        completeRide c4Ride 1 10 = .error .alreadyCompleted) ∧
      ((c4Ride.creatorId = 1 ∨ isParticipant c4Ride 1 = true) →
        completeRide c4Ride 1 10 = .error .alreadyCompleted) ∧
      applyOp c4Ride (.join 1 10) = c4Ride ∧
      applyOp c4Ride (.joinMatch 1 10) = c4Ride ∧
      applyOp c4Ride (.complete 1 10) = c4Ride) :=
  ⟨rfl, completed_terminal_amended c4Ride 1 10 rfl⟩

/-! ## Destination resolver characterization (C5, C9) -/

theorem group_eq_transport {d : String}
    (h : (getDestinationGroup d).group = "transport_hub") :
    (getDestinationGroup d).destinations =
      ["Railway Station", "Bus Stand", "Vijetha Mart", "Connplex Cinemas",
       "Tadepalligudem Highway"] := by
  cases hf : DESTINATION_GROUPS.find? (fun g => g.2.contains d) with
  | none =>
    simp only [getDestinationGroup, hf] at h
    exact absurd h (by decide)
  | some g =>
    have hm := List.mem_of_find?_eq_some hf
    simp only [getDestinationGroup, hf] at h ⊢
    fin_cases hm <;> first | rfl | exact absurd h (by decide)

theorem group_eq_shopping {d : String}
    (h : (getDestinationGroup d).group = "shopping") :
    (getDestinationGroup d).destinations =
      ["Bus Stand", "Vijetha Mart", "Connplex Cinemas", "Jio Mart",
       "GV Mall"] := by
  cases hf : DESTINATION_GROUPS.find? (fun g => g.2.contains d) with
  | none =>
    simp only [getDestinationGroup, hf] at h
    exact absurd h (by decide)
  | some g =>
    have hm := List.mem_of_find?_eq_some hf
    simp only [getDestinationGroup, hf] at h ⊢
    fin_cases hm <;> first | rfl | exact absurd h (by decide)

/-- What `areDestinationsCompatible` actually computes: exact
(case-sensitive) equality, equality of the two *resolved* group names
(where every destination outside the table resolves to the shared name
"other"), or the transport_hub / shopping pair (whose fixed member lists
overlap, so the overlap test always passes). -/
theorem compat_iff (a b : String) :
    areDestinationsCompatible a b = true ↔
      a = b ∨
      (getDestinationGroup a).group = (getDestinationGroup b).group ∨
      ((getDestinationGroup a).group = "transport_hub" ∧
        (getDestinationGroup b).group = "shopping") ∨
      ((getDestinationGroup a).group = "shopping" ∧
        (getDestinationGroup b).group = "transport_hub") := by
  by_cases hab : a = b
  · simp [areDestinationsCompatible, hab]
  · by_cases hg : (getDestinationGroup a).group = (getDestinationGroup b).group
    · simp [areDestinationsCompatible, hab, hg]
    · by_cases hts : (getDestinationGroup a).group = "transport_hub" ∧
          (getDestinationGroup b).group = "shopping"
      · have hda := group_eq_transport hts.1
        have hdb := group_eq_shopping hts.2
        simp [areDestinationsCompatible, hab, hg, hts.1, hts.2, hda, hdb]
      · by_cases hst : (getDestinationGroup a).group = "shopping" ∧
            (getDestinationGroup b).group = "transport_hub"
        · have hda := group_eq_shopping hst.1
          have hdb := group_eq_transport hst.2
          simp [areDestinationsCompatible, hab, hg, hst.1, hst.2, hda, hdb]
        · simp only [areDestinationsCompatible]
          rw [if_neg (by simpa using hab), if_neg (by simpa using hg),
            if_neg ?_]
          · simp [hab, hg, hts, hst]
          · simp only [Bool.or_eq_true, Bool.and_eq_true, beq_iff_eq]
            rintro (⟨h1, h2⟩ | ⟨h1, h2⟩)
            · exact hts ⟨h1, h2⟩
            · exact hst ⟨h1, h2⟩

/-- C5 as stated is false on two counts. "Foo" and "Bar" are absent from
every group of the table and differ, so per the claim they must be
incompatible — yet the resolver maps both to the shared fallback group
name "other" and answers `true`. And "railway station" matches
"Railway Station" case-insensitively, so per the claim they must be
compatible — yet the resolver's exact-match test is case-sensitive and
its table lookup finds only the latter, so it answers `false`. -/
theorem destination_compat_counterexample :
    (areDestinationsCompatible "Foo" "Bar" = true ∧
      "Foo" ≠ "Bar" ∧
      (∀ g ∈ DESTINATION_GROUPS, "Foo" ∉ g.2 ∧ "Bar" ∉ g.2)) ∧
    (lowerStr "railway station" = lowerStr "Railway Station" ∧
      areDestinationsCompatible "railway station" "Railway Station" =
        false) := by
  refine ⟨⟨?_, ?_, ?_⟩, ?_, ?_⟩ <;> decide

/-- C5 amended: the resolver returns `true` iff the two strings are
exactly equal (case-sensitively), or their *resolved* group names agree —
where every destination absent from the table resolves to the one shared
fallback group "other", so any two ungrouped destinations are compatible
with each other — or the two resolved groups are transport_hub and
shopping in either order (their fixed member lists overlap, so the
overlap test always passes). -/
theorem destination_compat_amended (a b : String) :
    areDestinationsCompatible a b = true ↔
      a = b ∨
      (getDestinationGroup a).group = (getDestinationGroup b).group ∨
      ((getDestinationGroup a).group = "transport_hub" ∧
        (getDestinationGroup b).group = "shopping") ∨
      ((getDestinationGroup a).group = "shopping" ∧
        (getDestinationGroup b).group = "transport_hub") :=
  compat_iff a b

theorem compat_rhs_swap {a b : String}
    (h : a = b ∨
      (getDestinationGroup a).group = (getDestinationGroup b).group ∨
      ((getDestinationGroup a).group = "transport_hub" ∧
        (getDestinationGroup b).group = "shopping") ∨
      ((getDestinationGroup a).group = "shopping" ∧
        (getDestinationGroup b).group = "transport_hub")) :
    b = a ∨
      (getDestinationGroup b).group = (getDestinationGroup a).group ∨
      ((getDestinationGroup b).group = "transport_hub" ∧
        (getDestinationGroup a).group = "shopping") ∨
      ((getDestinationGroup b).group = "shopping" ∧
        (getDestinationGroup a).group = "transport_hub") := by
  rcases h with h | h | ⟨h1, h2⟩ | ⟨h1, h2⟩
  · exact Or.inl h.symm
  · exact Or.inr (Or.inl h.symm)
  · exact Or.inr (Or.inr (Or.inr ⟨h2, h1⟩))
  · exact Or.inr (Or.inr (Or.inl ⟨h2, h1⟩))

/-- C9: the destination compatibility resolver is symmetric on all pairs
of destination strings (and, being a pure function of its two arguments,
deterministic and side-effect free). -/
theorem destination_compat_symm (a b : String) :
    areDestinationsCompatible a b = areDestinationsCompatible b a := by
  rw [Bool.eq_iff_iff, compat_iff a b, compat_iff b a]
  exact ⟨compat_rhs_swap, compat_rhs_swap⟩

/-! ## Join failure cases (C7) -/

/-- C7 as stated is false for the plain join handler: a ride in status
`waiting` with a free seat, a non-creator caller and no existing row is
rejected with NotFound (`SELECT ... WHERE status = 'active'` misses it),
where the claim predicts success. -/
theorem join_waiting_counterexample :
    (createdRide 1 6 RideStatus.waiting).status = RideStatus.waiting ∧
    (createdRide 1 6 RideStatus.waiting).creatorId ≠ 2 ∧
    isParticipant (createdRide 1 6 RideStatus.waiting) 2 = false ∧
    participantCount (createdRide 1 6 RideStatus.waiting) + 2 ≤
      (createdRide 1 6 RideStatus.waiting).maxSeats ∧
    joinRide (createdRide 1 6 RideStatus.waiting) 2 0 =
      .error .notFound := by
  refine ⟨rfl, ?_, rfl, ?_, rfl⟩ <;> decide

/-- C7 amended: the plain join handler's eligible status set is exactly
{active} — NotFound iff the status differs from `active` (so `waiting`
rides are rejected too); with an active ride, SelfJoinRejected iff the
caller is the creator; then AlreadyJoined iff the caller already has a
row; then the full rejection iff capacity (with the first-join
double-insert) is exceeded; and success in exactly the remaining cases.
The matched-join handler is the one whose eligible status set is
{active, waiting}. -/
theorem join_error_cases (r : Ride) (uid now : Nat) :
    (joinRide r uid now = .error .notFound ↔
      r.status ≠ RideStatus.active) ∧
    (joinRide r uid now = .error .selfJoin ↔
      r.status = RideStatus.active ∧ r.creatorId = uid) ∧
    (joinRide r uid now = .error .alreadyJoined ↔
      r.status = RideStatus.active ∧ r.creatorId ≠ uid ∧
      isParticipant r uid = true) ∧
    (joinRide r uid now = .error .rideFull ↔
      r.status = RideStatus.active ∧ r.creatorId ≠ uid ∧
      isParticipant r uid = false ∧
      r.maxSeats <
        participantCount r +
          (if participantCount r = 0 then 2 else 1)) ∧
    ((∃ r', joinRide r uid now = .ok r') ↔
      r.status = RideStatus.active ∧ r.creatorId ≠ uid ∧
      isParticipant r uid = false ∧
      participantCount r + (if participantCount r = 0 then 2 else 1) ≤
        r.maxSeats) ∧
    (joinMatchRide r uid now = .error .notFound ↔
      r.status ≠ RideStatus.active ∧ r.status ≠ RideStatus.waiting) := by
  simp only [joinRide, joinMatchRide]
  repeat' split
  all_goals simp_all [participantCount]

/-! ## max_seats is pinned to 6 on both persistence paths (C10) -/

/-- The `maxSeats` field of `createRideSchema`
(`z.number().min(6).max(6).default(6)`): absent values default to 6;
present values pass validation iff they lie in the inclusive range
[6, 6]. -/
def parseMaxSeats (supplied : Option Int) : Option Int :=
  match supplied with
  | none => some 6
  | some n => if 6 ≤ n ∧ n ≤ 6 then some n else none

/-- The `max_seats` value `router.post("/")` binds into its INSERT when
validation succeeds: the handler overwrites the parsed field
(`data.maxSeats = 6`) and the INSERT passes the literal 6. -/
def createInsertMaxSeats (supplied : Option Int) : Option Int :=
  (parseMaxSeats supplied).map (fun _ => 6)

/-- The `max_seats` value `router.post("/match")` binds into its INSERT:
the handler ignores the body's `maxSeats` entirely
(`const forcedMaxSeats = 6`). -/
def matchInsertMaxSeats (_supplied : Option Int) : Int :=
  6

/-- C10: the create-path schema accepts only `maxSeats = 6` (defaulting
to 6 when absent), and whenever either persistence path inserts a ride it
stores `max_seats = 6` regardless of the supplied value. -/
theorem max_seats_always_six (supplied : Option Int) :
    (∀ n, parseMaxSeats supplied = some n → n = 6) ∧
    (∀ n, parseMaxSeats supplied = some n →
      createInsertMaxSeats supplied = some 6) ∧
    matchInsertMaxSeats supplied = 6 := by
  refine ⟨?_, ?_, rfl⟩
  · intro n h
    cases supplied with
    | none =>
      simp only [parseMaxSeats, Option.some.injEq] at h
      omega
    | some m =>
      simp only [parseMaxSeats] at h
      split_ifs at h with hb
      simp only [Option.some.injEq] at h
      omega
  · intro n h
    simp [createInsertMaxSeats, h]

/-- Witness for `max_seats_always_six` at a concrete request body
supplying `maxSeats = 6`. -/
theorem max_seats_always_six_witness :
    parseMaxSeats (some 6) = some 6 ∧
    ((6 : Int) = 6 ∧ createInsertMaxSeats (some 6) = some 6) :=
  ⟨rfl, (max_seats_always_six (some 6)).1 6 rfl,
    (max_seats_always_six (some 6)).2.1 6 rfl⟩

/-! ## Ride Matcher: `findMatchingRides` (C6)

The SQL query is embedded as a filter over the `rides` table joined
against a participant count, followed by the ORDER BY (any sort agreeing
with the ranking relation — here an insertion sort, which the kernel can
evaluate) and `LIMIT 5`. -/

/-- One row of `rides` as the matcher sees it. Times of day are minutes
since midnight (SQL `TIME` comparison is numeric comparison on these). -/
structure RideRow where
  id : Nat
  creatorId : Nat
  destination : String
  date : String
  timeStart : Nat
  timeEnd : Nat
  maxSeats : Nat
  status : RideStatus
deriving DecidableEq, Repr

/-- One row of `ride_participants`, as the matcher's correlated
`COUNT(*)` subquery sees it. -/
structure PartRow where
  rideId : Nat
  userId : Nat
deriving DecidableEq, Repr

/-- `(SELECT COUNT(*) FROM ride_participants WHERE ride_id = r.id)`. -/
def liveParticipantCount (parts : List PartRow) (rid : Nat) : Nat :=
  (parts.filter (fun p => p.rideId == rid)).length

/-- The `destinationParams` array the handler builds before querying: the
requested destination itself, then the other members of its resolved
group (when grouped), then — for transport_hub / shopping — the
overlapping members of the counterpart group not already pushed
(sequential `includes` dedup, as the `forEach` loop does). -/
def destinationParams (destination : String) : List String :=
  let destGroup := getDestinationGroup destination
  let base := [destination]
  let base :=
    if destGroup.group ≠ "other" then
      base ++ destGroup.destinations.filter (fun d => d ≠ destination)
    else base
  if destGroup.group == "transport_hub" || destGroup.group == "shopping" then
    let otherName :=
      if destGroup.group == "transport_hub" then "shopping"
      else "transport_hub"
    let otherDests :=
      ((DESTINATION_GROUPS.find? (fun g => g.1 == otherName)).map
        Prod.snd).getD []
    let overlapping :=
      otherDests.filter (fun d => destGroup.destinations.contains d)
    overlapping.foldl
      (fun acc d => if acc.contains d then acc else acc ++ [d]) base
  else base

/-- The query's four-way inclusive interval-overlap disjunction on
`[candStart, candEnd]` (the stored window) against the requested
`[reqStart, reqEnd]`, parameter for parameter. -/
def timeWindowsOverlap (candStart candEnd reqStart reqEnd : Nat) : Bool :=
  (decide (candStart ≤ reqStart) && decide (candEnd ≥ reqStart)) ||
  (decide (candStart ≤ reqEnd) && decide (candEnd ≥ reqEnd)) ||
  (decide (candStart ≥ reqStart) && decide (candEnd ≤ reqEnd)) ||
  (decide (reqStart ≥ candStart) && decide (reqEnd ≤ candEnd))

/-- The query's WHERE clause for one candidate row. -/
def rideMatches (destination : String) (reqStart reqEnd : Nat)
    (date : String) (requesterId : Nat) (parts : List PartRow)
    (r : RideRow) : Bool :=
  (r.status == RideStatus.active || r.status == RideStatus.waiting) &&
  (r.creatorId != requesterId) &&
  (r.date == date) &&
  (destinationParams destination).any
    (fun p => lowerStr r.destination == lowerStr p) &&
  timeWindowsOverlap r.timeStart r.timeEnd reqStart reqEnd &&
  decide (liveParticipantCount parts r.id < r.maxSeats)

/-- The ORDER BY relation: exact (lowercased) destination matches rank
in tier 1 and everything else in tier 2, ties broken by ascending
absolute difference between the candidate's start time and the requested
start time. -/
def rankedBefore (destination : String) (reqStart : Nat)
    (a b : RideRow) : Bool :=
  let tierA : Nat := if lowerStr a.destination == lowerStr destination
                     then 1 else 2
  let tierB : Nat := if lowerStr b.destination == lowerStr destination
                     then 1 else 2
  let diffA := max a.timeStart reqStart - min a.timeStart reqStart
  let diffB := max b.timeStart reqStart - min b.timeStart reqStart
  decide (tierA < tierB) || ((tierA == tierB) && decide (diffA ≤ diffB))

/-- Insert into a sorted list (kernel-evaluable sort backend for the
embedded ORDER BY). -/
def insertSorted {α : Type} (le : α → α → Bool) (x : α) :
    List α → List α
  | [] => [x]
  | y :: ys => if le x y then x :: y :: ys else y :: insertSorted le x ys

/-- Insertion sort; it permutes its input, which is all the exclusion
property needs from ORDER BY. -/
def sortRows {α : Type} (le : α → α → Bool) : List α → List α
  | [] => []
  | x :: xs => insertSorted le x (sortRows le xs)

theorem mem_insertSorted {α : Type} (le : α → α → Bool) (x a : α)
    (l : List α) : a ∈ insertSorted le x l ↔ a = x ∨ a ∈ l := by
  induction l with
  | nil => simp [insertSorted]
  | cons y ys ih =>
    simp only [insertSorted]
    split_ifs with hle
    · simp [List.mem_cons]
    · simp only [List.mem_cons, ih]
      tauto

theorem mem_sortRows {α : Type} (le : α → α → Bool) (a : α)
    (l : List α) : a ∈ sortRows le l ↔ a ∈ l := by
  induction l with
  | nil => simp [sortRows]
  | cons x xs ih =>
    simp only [sortRows, mem_insertSorted, List.mem_cons, ih]

/-- `findMatchingRides`: filter by the WHERE clause, sort by the ORDER BY
relation, `LIMIT 5`. (On a storage error the real function returns `[]`;
the error-free path is what the exclusion property quantifies over.) -/
def findMatchingRides (rides : List RideRow) (parts : List PartRow)
    (destination : String) (reqStart reqEnd : Nat) (date : String)
    (requesterId : Nat) : List RideRow :=
  ((rides.filter
      (rideMatches destination reqStart reqEnd date requesterId parts)).foldr
    (insertSorted (rankedBefore destination reqStart)) []).take 5

theorem findMatchingRides_eq_sortRows (rides : List RideRow)
    (parts : List PartRow) (destination : String) (reqStart reqEnd : Nat)
    (date : String) (requesterId : Nat) :
    findMatchingRides rides parts destination reqStart reqEnd date
        requesterId =
      (sortRows (rankedBefore destination reqStart)
        (rides.filter
          (rideMatches destination reqStart reqEnd date requesterId
            parts))).take 5 := by
  unfold findMatchingRides
  congr 1
  induction rides.filter
      (rideMatches destination reqStart reqEnd date requesterId parts) with
  | nil => rfl
  | cons x xs ih => simp [sortRows, List.foldr_cons, ih]

/-- C6: every ride returned by `findMatchingRides` was created by someone
other than the requester, has a live participant count strictly below its
`max_seats`, is in status active or waiting, and is on the requested
date. -/
theorem find_matches_exclusion (rides : List RideRow)
    (parts : List PartRow) (destination : String) (reqStart reqEnd : Nat)
    (date : String) (requesterId : Nat) (r : RideRow)
    (h : r ∈ findMatchingRides rides parts destination reqStart reqEnd
        date requesterId) :
    r.creatorId ≠ requesterId ∧
    liveParticipantCount parts r.id < r.maxSeats ∧
    (r.status = RideStatus.active ∨ r.status = RideStatus.waiting) ∧
    r.date = date := by
  rw [findMatchingRides_eq_sortRows] at h
  have h1 := List.take_subset _ _ h
  rw [mem_sortRows] at h1
  have h2 := List.mem_filter.mp h1
  have h3 := h2.2
  simp only [rideMatches, Bool.and_eq_true, Bool.or_eq_true, beq_iff_eq,
    bne_iff_ne, decide_eq_true_eq] at h3
  exact ⟨h3.1.1.1.1.2, h3.2, h3.1.1.1.1.1, h3.1.1.1.2⟩

/-- The candidate ride used to witness `find_matches_exclusion`. -/
def c6Row : RideRow :=
  { id := 1, creatorId := 1, destination := "Railway Station",
    date := "2025-01-10", timeStart := 540, timeEnd := 600, maxSeats := 6,
    status := RideStatus.active }

/-- Witness for `find_matches_exclusion`: requester 2 searching
"Railway Station" on the same date and window receives `c6Row`, and the
exclusion properties hold for it. -/
theorem find_matches_exclusion_witness :
    c6Row ∈ findMatchingRides [c6Row] [] "Railway Station" 540 600
        "2025-01-10" 2 ∧
    (c6Row.creatorId ≠ 2 ∧
      liveParticipantCount [] c6Row.id < c6Row.maxSeats ∧
      (c6Row.status = RideStatus.active ∨
        c6Row.status = RideStatus.waiting) ∧
      c6Row.date = "2025-01-10") :=
  ⟨by decide,
    find_matches_exclusion [c6Row] [] "Railway Station" 540 600
      "2025-01-10" 2 c6Row (by decide)⟩

/-! ## Expiration Sweeper: `cleanupExpiredRides` (C8)

`server.js` computes "now" in IST (UTC+5:30) as a `"YYYY-MM-DD"` date
string and an `"HH:MM"` time string and compares them to the stored
columns; on these fixed-width formats lexicographic string order is
chronological order, so the civil date and time arrive here as `String`
parameters. Each expired ride is processed in its own transaction whose
failure (modelled by the `fails` predicate) is caught, rolled back and
logged, leaving that ride untouched and the loop running. -/

/-- One row of `rides` as the sweeper sees it. -/
structure SRide where
  id : Nat
  status : RideStatus
  date : String
  timeEnd : String
deriving DecidableEq, Repr

/-- One row of `ride_messages`. -/
structure MsgRow where
  id : Nat
  rideId : Nat
deriving DecidableEq, Repr

/-- The tables the sweeper touches. -/
structure SweepDB where
  rides : List SRide
  participants : List PartRow
  messages : List MsgRow
deriving DecidableEq, Repr

/-- Lexicographic order on character lists. -/
def charListLt : List Char → List Char → Bool
  | [], [] => false
  | [], _ :: _ => true
  | _ :: _, [] => false
  | a :: as, b :: bs =>
    if a < b then true
    else if b < a then false
    else charListLt as bs

/-- JavaScript `<` / SQL `<` on the `"YYYY-MM-DD"` and `"HH:MM"` strings
the sweeper compares: lexicographic by character code, written over the
character lists so that it evaluates inside the kernel. -/
def strLt (a b : String) : Bool :=
  charListLt a.data b.data

/-- The sweep query's WHERE clause:
`status = 'active' AND (date < ? OR (date = ? AND time_window_end < ?))`. -/
def isExpiredRide (currentDate currentTime : String) (r : SRide) : Bool :=
  (r.status == RideStatus.active) &&
  (strLt r.date currentDate ||
    ((r.date == currentDate) && strLt r.timeEnd currentTime))

/-- `UPDATE rides SET status = 'completed' WHERE id = ?` applied to one
stored row. -/
def completeRow (rid : Nat) (r : SRide) : SRide :=
  if r.id == rid then { r with status := RideStatus.completed } else r

theorem completeRow_id (rid : Nat) (r : SRide) :
    (completeRow rid r).id = r.id := by
  unfold completeRow
  split_ifs <;> rfl

/-- One per-ride transaction of the sweep. `fails rid = true` models a
storage error inside this ride's transaction: the handler catches it,
ROLLBACKs (state unchanged for this ride) and logs. Otherwise the ride is
marked `completed` when it has at least one participant row, and
hard-deleted together with its `ride_messages` rows when it has none. -/
def sweepRide (fails : Nat → Bool) (db : SweepDB) (rid : Nat) : SweepDB :=
  if fails rid then
    db
  else if 0 < (db.participants.filter (fun p => p.rideId == rid)).length then
    { db with rides := db.rides.map (completeRow rid) }
  else
    { db with rides := db.rides.filter (fun r => r.id ≠ rid),
              messages := db.messages.filter (fun m => m.rideId ≠ rid) }

/-- `cleanupExpiredRides`: select the expired rides once, then process
each in turn (each in its own transaction). -/
def cleanupExpiredRides (fails : Nat → Bool)
    (currentDate currentTime : String) (db : SweepDB) : SweepDB :=
  ((db.rides.filter (isExpiredRide currentDate currentTime)).map
    (fun r => r.id)).foldl (sweepRide fails) db

/-- The rides of `db` carrying id `i`. -/
def ridesWithId (db : SweepDB) (i : Nat) : List SRide :=
  db.rides.filter (fun r => r.id == i)

/-- The messages of `db` attached to ride `i`. -/
def messagesOf (db : SweepDB) (i : Nat) : List MsgRow :=
  db.messages.filter (fun m => m.rideId == i)

theorem sweepRide_participants (f : Nat → Bool) (db : SweepDB)
    (rid : Nat) : (sweepRide f db rid).participants = db.participants := by
  unfold sweepRide
  split_ifs <;> rfl

theorem foldl_sweepRide_participants (f : Nat → Bool) (L : List Nat)
    (db : SweepDB) :
    (L.foldl (sweepRide f) db).participants = db.participants := by
  induction L generalizing db with
  | nil => rfl
  | cons x xs ih => rw [List.foldl_cons, ih, sweepRide_participants]

theorem filter_map_complete (l : List SRide) (rid i : Nat) :
    (l.map (completeRow rid)).filter (fun r => r.id == i) =
      (l.filter (fun r => r.id == i)).map (completeRow rid) := by
  induction l with
  | nil => rfl
  | cons x xs ih =>
    simp only [List.map_cons, List.filter_cons, completeRow_id]
    by_cases hx : x.id = i
    · simp only [hx, beq_self_eq_true, if_pos, List.map_cons, ih]
    · have hb : (x.id == i) = false := by simpa using hx
      simp only [hb, Bool.false_eq_true, if_false, ih]

theorem filter_key_filter_ne {α : Type} (key : α → Nat) (l : List α)
    (rid i : Nat) (hne : rid ≠ i) :
    (l.filter (fun x => key x ≠ rid)).filter (fun x => key x == i) =
      l.filter (fun x => key x == i) := by
  rw [List.filter_comm]
  apply List.filter_eq_self.mpr
  intro a ha
  have hai : key a = i := by simpa using (List.mem_filter.mp ha).2
  simp only [decide_eq_true_eq]
  omega

theorem sweepRide_other (f : Nat → Bool) (db : SweepDB) (rid i : Nat)
    (hne : rid ≠ i) :
    ridesWithId (sweepRide f db rid) i = ridesWithId db i ∧
    messagesOf (sweepRide f db rid) i = messagesOf db i := by
  unfold sweepRide ridesWithId messagesOf
  split_ifs with h1 h2
  · exact ⟨rfl, rfl⟩
  · refine ⟨?_, rfl⟩
    simp only
    rw [filter_map_complete]
    have hcongr : ∀ x ∈ db.rides.filter (fun r => r.id == i),
        completeRow rid x = id x := by
      intro x hx
      have hxi : x.id = i := by
        simpa using (List.mem_filter.mp hx).2
      unfold completeRow
      have : (x.id == rid) = false := by
        simp only [beq_eq_false_iff_ne]
        omega
      simp [this]
    rw [List.map_congr_left hcongr, List.map_id]
  · exact ⟨filter_key_filter_ne (fun r => r.id) db.rides rid i hne,
      filter_key_filter_ne (fun m => m.rideId) db.messages rid i hne⟩

theorem foldl_sweepRide_other (f : Nat → Bool) (L : List Nat)
    (db : SweepDB) (i : Nat) (hni : i ∉ L) :
    ridesWithId (L.foldl (sweepRide f) db) i = ridesWithId db i ∧
    messagesOf (L.foldl (sweepRide f) db) i = messagesOf db i := by
  induction L generalizing db with
  | nil => exact ⟨rfl, rfl⟩
  | cons x xs ih =>
    have hxi : x ≠ i := fun h => hni (h ▸ List.mem_cons_self _ _)
    have hni' : i ∉ xs := fun h => hni (List.mem_cons_of_mem _ h)
    rw [List.foldl_cons]
    obtain ⟨hr, hm⟩ := ih (sweepRide f db x) hni'
    obtain ⟨hr', hm'⟩ := sweepRide_other f db x i hxi
    exact ⟨hr.trans hr', hm.trans hm'⟩

theorem filter_key_eq_single {α : Type} (key : α → Nat) {l : List α}
    {r : α} (hnodup : (l.map key).Nodup) (hr : r ∈ l) :
    l.filter (fun x => key x == key r) = [r] := by
  induction l with
  | nil => cases hr
  | cons x xs ih =>
    rw [List.map_cons, List.nodup_cons] at hnodup
    rcases List.mem_cons.mp hr with rfl | hmem
    · simp only [List.filter_cons, beq_self_eq_true, if_pos]
      have hnil : xs.filter (fun x => key x == key r) = [] := by
        rw [List.filter_eq_nil_iff]
        intro a ha
        have : key a ∈ xs.map key := List.mem_map_of_mem key ha
        simp only [beq_iff_eq]
        intro hk
        exact hnodup.1 (hk ▸ this)
      simp [hnil]
    · have hk : key x ≠ key r := by
        intro hk
        exact hnodup.1 (hk ▸ List.mem_map_of_mem key hmem)
      simp only [List.filter_cons]
      have : (key x == key r) = false := by simpa using hk
      simp [this, ih hnodup.2 hmem]

theorem filter_key_filter_self {α : Type} (key : α → Nat) (l : List α)
    (i : Nat) :
    (l.filter (fun x => key x ≠ i)).filter (fun x => key x == i) = [] := by
  apply List.filter_eq_nil_iff.mpr
  intro a ha
  have h2 : key a ≠ i := by simpa using (List.mem_filter.mp ha).2
  simpa using h2

theorem sweepRide_self_pos (f : Nat → Bool) (db : SweepDB) (rid : Nat)
    (hok : f rid = false)
    (hc : 0 < (db.participants.filter (fun p => p.rideId == rid)).length) :
    ridesWithId (sweepRide f db rid) rid =
      (ridesWithId db rid).map (completeRow rid) ∧
    messagesOf (sweepRide f db rid) rid = messagesOf db rid := by
  unfold sweepRide ridesWithId messagesOf
  rw [if_neg (by simp [hok]), if_pos hc]
  exact ⟨filter_map_complete db.rides rid rid, rfl⟩

theorem sweepRide_self_zero (f : Nat → Bool) (db : SweepDB) (rid : Nat)
    (hok : f rid = false)
    (hc : (db.participants.filter (fun p => p.rideId == rid)).length = 0) :
    ridesWithId (sweepRide f db rid) rid = [] ∧
    messagesOf (sweepRide f db rid) rid = [] := by
  unfold sweepRide ridesWithId messagesOf
  rw [if_neg (by simp [hok]), if_neg (by omega)]
  exact ⟨filter_key_filter_self (fun x => x.id) db.rides rid,
    filter_key_filter_self (fun m => m.rideId) db.messages rid⟩

/-- C8: in one sweeper pass, every `active` ride whose date is before the
civil "today", or whose date is "today" with `time_window_end` already
passed, and whose own per-ride transaction does not fail, is transitioned
to `completed` when it has at least one participant row and hard-deleted
together with its messages when it has none — regardless of which other
rides' transactions fail. The `ride_participants` table is never
touched. -/
theorem sweeper_spec (db : SweepDB) (fails : Nat → Bool)
    (currentDate currentTime : String) (r : SRide)
    (hnodup : (db.rides.map (fun x => x.id)).Nodup)
    (hr : r ∈ db.rides)
    (hexp : isExpiredRide currentDate currentTime r = true)
    (hok : fails r.id = false) :
    (cleanupExpiredRides fails currentDate currentTime db).participants =
      db.participants ∧
    (0 < liveParticipantCount db.participants r.id →
      ridesWithId (cleanupExpiredRides fails currentDate currentTime db)
        r.id = [{ r with status := RideStatus.completed }]) ∧
    (liveParticipantCount db.participants r.id = 0 →
      ridesWithId (cleanupExpiredRides fails currentDate currentTime db)
        r.id = [] ∧
      messagesOf (cleanupExpiredRides fails currentDate currentTime db)
        r.id = []) := by
  have hrE : r ∈ db.rides.filter (isExpiredRide currentDate currentTime) :=
    List.mem_filter.mpr ⟨hr, hexp⟩
  have hEL : r.id ∈
      (db.rides.filter (isExpiredRide currentDate currentTime)).map
        (fun x => x.id) :=
    List.mem_map_of_mem _ hrE
  have hLnodup :
      ((db.rides.filter (isExpiredRide currentDate currentTime)).map
        (fun x => x.id)).Nodup :=
    List.Nodup.sublist
      (List.Sublist.map (fun x => x.id) (List.filter_sublist db.rides))
      hnodup
  obtain ⟨L1, L2, hsplit⟩ := List.append_of_mem hEL
  rw [hsplit] at hLnodup
  obtain ⟨-, hn2', hdisj⟩ := List.nodup_append.mp hLnodup
  have hn2 : r.id ∉ L2 := (List.nodup_cons.mp hn2').1
  have hn1 : r.id ∉ L1 := fun h => hdisj h (List.mem_cons_self _ _)
  unfold cleanupExpiredRides
  rw [hsplit, List.foldl_append, List.foldl_cons]
  have hpart1 : (L1.foldl (sweepRide fails) db).participants =
      db.participants := foldl_sweepRide_participants fails L1 db
  obtain ⟨hr1, hm1⟩ := foldl_sweepRide_other fails L1 db r.id hn1
  have hsingle : ridesWithId db r.id = [r] :=
    filter_key_eq_single (fun x : SRide => x.id) hnodup hr
  obtain ⟨hr2, hm2⟩ := foldl_sweepRide_other fails L2
    (sweepRide fails (L1.foldl (sweepRide fails) db) r.id) r.id hn2
  have hpartFinal :
      (L2.foldl (sweepRide fails)
        (sweepRide fails (L1.foldl (sweepRide fails) db) r.id)).participants
        = db.participants := by
    rw [foldl_sweepRide_participants, sweepRide_participants, hpart1]
  refine ⟨hpartFinal, ?_, ?_⟩
  · intro hc
    have hcpos : 0 < ((L1.foldl (sweepRide fails) db).participants.filter
        (fun p => p.rideId == r.id)).length := by
      rw [hpart1]; exact hc
    obtain ⟨hsp, -⟩ :=
      sweepRide_self_pos fails (L1.foldl (sweepRide fails) db) r.id hok hcpos
    rw [hr2, hsp, hr1, hsingle]
    simp [completeRow]
  · intro hc
    have hczero : ((L1.foldl (sweepRide fails) db).participants.filter
        (fun p => p.rideId == r.id)).length = 0 := by
      rw [hpart1]; exact hc
    obtain ⟨hsz, hmz⟩ :=
      sweepRide_self_zero fails (L1.foldl (sweepRide fails) db) r.id hok
        hczero
    exact ⟨hr2.trans hsz, hm2.trans hmz⟩

/-- The expired ride used to witness `sweeper_spec`. -/
def c8Ride : SRide :=
  { id := 1, status := RideStatus.active, date := "2025-01-01",
    timeEnd := "10:00" }

/-- A sweep state with three expired active rides: ride 1 has a
participant, ride 2 has none but has a message, and ride 3's per-ride
transaction fails. -/
def c8Db : SweepDB :=
  { rides := [c8Ride,
      { id := 2, status := RideStatus.active, date := "2025-01-01",
        timeEnd := "10:00" },
      { id := 3, status := RideStatus.active, date := "2025-01-01",
        timeEnd := "10:00" }],
    participants := [{ rideId := 1, userId := 5 }],
    messages := [{ id := 1, rideId := 2 }] }

/-- Witness for `sweeper_spec`: with civil time 2025-01-02 09:00 IST,
ride 1 (one participant) is processed even though ride 3's transaction
fails. -/
theorem sweeper_spec_witness :
    ((c8Db.rides.map (fun x => x.id)).Nodup ∧ c8Ride ∈ c8Db.rides ∧
      isExpiredRide "2025-01-02" "09:00" c8Ride = true ∧
      (fun n : Nat => n == 3) c8Ride.id = false) ∧
    ((cleanupExpiredRides (fun n : Nat => n == 3) "2025-01-02" "09:00"
        c8Db).participants = c8Db.participants ∧
      (0 < liveParticipantCount c8Db.participants c8Ride.id →
        ridesWithId (cleanupExpiredRides (fun n : Nat => n == 3)
            "2025-01-02" "09:00" c8Db) c8Ride.id =
          [{ c8Ride with status := RideStatus.completed }]) ∧
      (liveParticipantCount c8Db.participants c8Ride.id = 0 →
        ridesWithId (cleanupExpiredRides (fun n : Nat => n == 3)
            "2025-01-02" "09:00" c8Db) c8Ride.id = [] ∧
        messagesOf (cleanupExpiredRides (fun n : Nat => n == 3)
            "2025-01-02" "09:00" c8Db) c8Ride.id = [])) :=
  ⟨⟨by decide, by decide, by decide, by decide⟩,
    sweeper_spec c8Db (fun n : Nat => n == 3) "2025-01-02" "09:00" c8Ride
      (by decide) (by decide) (by decide) (by decide)⟩

end RideShare
